import Mathlib

/-!
Shallow embedding of the `cdglove/simd-perf` benchmark harness
(`src/simd-mult.cpp` and the unnamed copy program `src/unnamed/part_000`,
internally `simd-copy.cpp`).

Machine addresses (`std::size_t`) are modelled as `Nat`: address-space
wraparound cannot occur for pointers into valid allocations, so no `% 2^64`
is needed for the address arithmetic the claims are about.  Buffer memory is
modelled at element granularity as a total function `Nat → α` from element
addresses to values; `float` values are modelled by an abstract type `α`
(with a `Mul α` instance where the code multiplies), so "the value the
machine's multiply produced" is `x * y` for the abstract `*`.
-/

namespace SimdPerf

/-- A heap of elements: element address → stored value. -/
abbrev Heap (α : Type) := Nat → α

/-! ## Alignment utility

`align` (simd-mult.cpp lines 28–35, part_000 lines 48–55):

```
template<typename T>
T* align(T* p, std::size_t aligned_to)
{
    std::size_t address = reinterpret_cast<std::size_t>(p);
    while(address % 256 != aligned_to)
        ++address;
    return reinterpret_cast<T*>(address);
}
```

The loop is transliterated as `alignLoop`.  It terminates only when the
target offset is `< 256` (claim C10); the proof argument `hk` records that
precondition, which Lean's termination checker needs.  Addresses count
bytes. -/

/-- The `while(address % 256 != aligned_to) ++address;` loop of `align`. -/
def alignLoop (k : Nat) (hk : k < 256) (address : Nat) : Nat :=
  if address % 256 = k then address else alignLoop k hk (address + 1)
termination_by (k + 256 - address % 256) % 256
decreasing_by omega

/-- Model of `align(p, aligned_to)` from the source, on byte addresses. -/
def align (p k : Nat) (hk : k < 256) : Nat :=
  alignLoop k hk p

/-- Closed form of the alignment loop: it advances the address by exactly
`(k + 256 - p % 256) % 256` bytes. -/
theorem alignLoop_closed (k : Nat) (hk : k < 256) :
    ∀ g p, (k + 256 - p % 256) % 256 = g → alignLoop k hk p = p + g := by
  intro g
  induction g with
  | zero =>
      intro p hg
      have hpk : p % 256 = k := by omega
      rw [alignLoop, if_pos hpk]
      omega
  | succ n ih =>
      intro p hg
      have hpk : ¬ p % 256 = k := by omega
      have hnext : (k + 256 - (p + 1) % 256) % 256 = n := by omega
      rw [alignLoop, if_neg hpk, ih (p + 1) hnext]
      omega

/-! ## Timed-run executor loop

`Run` (simd-mult.cpp lines 136–141, part_000 lines 151–156):

```
for(std::size_t i = 0; i < gTotalFloats; i += gNumFloats)
{
    f(d, a, b);
}
```

The loop applies the operation `f` to the (implicit) machine state once per
iteration; the loop counter `i` is the only state the loop itself advances.
`runLoop` transliterates it over an arbitrary state type, and
`runCountFrom` counts its iterations.  `hnum` records that the stride is
positive (with `num = 0` the C++ loop would not terminate either). -/

/-- The executor's repetition loop: apply `f` to the state once per
iteration of `for(i = 0; i < total; i += num)`. -/
def runLoop {σ : Type} (f : σ → σ) (total num : Nat) (hnum : 0 < num)
    (s : σ) (i : Nat) : σ :=
  if i < total then runLoop f total num hnum (f s) (i + num) else s
termination_by total - i
decreasing_by omega

/-- Number of iterations the executor loop performs starting at counter
value `i`. -/
def runCountFrom (total num : Nat) (hnum : 0 < num) (i : Nat) : Nat :=
  if i < total then runCountFrom total num hnum (i + num) + 1 else 0
termination_by total - i
decreasing_by omega

/-- Number of invocations of the operation in one call of `Run`. -/
def runCount (total num : Nat) (hnum : 0 < num) : Nat :=
  runCountFrom total num hnum 0

/-- The iteration count is the ceiling `(total - i + num - 1) / num`. -/
theorem runCountFrom_eq (total num : Nat) (hnum : 0 < num) :
    ∀ g i, total - i = g → runCountFrom total num hnum i = (total - i + num - 1) / num := by
  intro g
  induction g using Nat.strong_induction_on with
  | _ g ih =>
      intro i hg
      by_cases hi : i < total
      · rw [runCountFrom, if_pos hi,
          ih (total - (i + num)) (by omega) (i + num) rfl]
        have ht : 1 ≤ total - i := by omega
        have h1 : total - (i + num) + num - 1 = total - i - 1 ∨
            (total - (i + num) + num - 1 < num ∧ total - i - 1 < num) := by omega
        have h2 : total - i + num - 1 = (total - i - 1) + num := by omega
        rcases h1 with h1 | ⟨h1a, h1b⟩
        · rw [h1, h2, Nat.add_div_right _ hnum]
        · rw [Nat.div_eq_of_lt h1a, h2, Nat.add_div_right _ hnum,
            Nat.div_eq_of_lt h1b]
      · rw [runCountFrom, if_neg hi]
        have : total - i = 0 := by omega
        rw [this, Nat.zero_add, Nat.div_eq_of_lt (by omega)]

/-- The executor loop is exactly `runCountFrom` applications of the
operation, with no other state change. -/
theorem runLoop_eq_iterate {σ : Type} (f : σ → σ) (total num : Nat)
    (hnum : 0 < num) :
    ∀ g i s, total - i = g →
      runLoop f total num hnum s i = f^[runCountFrom total num hnum i] s := by
  intro g
  induction g using Nat.strong_induction_on with
  | _ g ih =>
      intro i s hg
      by_cases hi : i < total
      · rw [runLoop, if_pos hi, runCountFrom, if_pos hi,
          ih (total - (i + num)) (by omega) (i + num) (f s) rfl,
          Function.iterate_succ_apply]
      · rw [runLoop, if_neg hi, runCountFrom, if_neg hi,
          Function.iterate_zero_apply]

/-- Frame property of the repetition loop: if each invocation of the
operation leaves every address satisfying `P` unchanged, so does the whole
loop. -/
theorem runLoop_frame {α : Type} (f : Heap α → Heap α) (total num : Nat)
    (hnum : 0 < num) (P : Nat → Prop)
    (hf : ∀ (h : Heap α) (x : Nat), P x → f h x = h x) :
    ∀ g i (h : Heap α) (x : Nat), total - i = g → P x →
      runLoop f total num hnum h i x = h x := by
  intro g
  induction g using Nat.strong_induction_on with
  | _ g ih
  =>
      intro i h x hg hx
      by_cases hi : i < total
      · rw [runLoop, if_pos hi,
          ih (total - (i + num)) (by omega) (i + num) (f h) x rfl hx,
          hf h x hx]
      · rw [runLoop, if_neg hi]

/-! ## Operation variants

Each variant is a loop of the shape `for(i = 0; i < gNumFloats; i += w)`
whose body loads `w` consecutive elements (all of them before any store —
as the SSE/AVX intrinsics do: the whole vector register is loaded, then
the whole register is stored) and stores `w` results.  The aligned,
unaligned and non-temporal intrinsics differ only in alignment faulting
and cache behaviour, which the functional memory model does not observe,
so variants of equal width share the generic loops `copyBlockLoop` /
`mulBlockLoop`; the alignment preconditions appear in the dispatch model
below.  `num` stands for the global `gNumFloats`. -/

/-- Store the `w` values `vals 0 .. vals (w-1)` at addresses
`dbase .. dbase + w - 1`. -/
def writeBlock {α : Type} (h : Heap α) (dbase w : Nat) (vals : Nat → α) : Heap α :=
  fun x => if dbase ≤ x ∧ x < dbase + w then vals (x - dbase) else h x

/-- Generic copy loop: `for(i = 0; i < num; i += w)` loading `w` elements
from `s + i` and storing them at `d + i`. -/
def copyBlockLoop {α : Type} (w : Nat) (hw : 0 < w) (num d s : Nat)
    (h : Heap α) (i : Nat) : Heap α :=
  if i < num then
    copyBlockLoop w hw num d s (writeBlock h (d + i) w (fun j => h (s + i + j))) (i + w)
  else h
termination_by num - i
decreasing_by omega

/-- Generic multiply loop: `for(i = 0; i < num; i += w)` loading `w`
elements from each of `a + i` and `b + i` and storing the products at
`d + i`. -/
def mulBlockLoop {α : Type} [Mul α] (w : Nat) (hw : 0 < w) (num d a b : Nat)
    (h : Heap α) (i : Nat) : Heap α :=
  if i < num then
    mulBlockLoop w hw num d a b
      (writeBlock h (d + i) w (fun j => h (a + i + j) * h (b + i + j))) (i + w)
  else h
termination_by num - i
decreasing_by omega

/-- Model of `MemCopy` (part_000 lines 67–70): `memcpy(d, s, num * sizeof(float))`,
a block copy of `num` elements (the program only calls it with
non-overlapping regions). -/
def MemCopy {α : Type} (num : Nat) (h : Heap α) (d s : Nat) : Heap α :=
  fun x => if d ≤ x ∧ x < d + num then h (s + (x - d)) else h x

/-- Model of `StdCopy` (part_000 lines 72–75): `std::copy(s, s + num, d)`, a forward
element-by-element copy. -/
def StdCopy {α : Type} (num : Nat) (h : Heap α) (d s : Nat) : Heap α :=
  copyBlockLoop 1 Nat.one_pos num d s h 0

/-- Model of `SimpleCopy` (part_000 lines 77–83): scalar `*d++ = *s++` loop. -/
def SimpleCopy {α : Type} (num : Nat) (h : Heap α) (d s : Nat) : Heap α :=
  copyBlockLoop 1 Nat.one_pos num d s h 0

/-- Model of `UnalignedSseCopy` (part_000 lines 85–92): width-4 `_mm_loadu_ps` /
`_mm_storeu_ps` loop. -/
def UnalignedSseCopy {α : Type} (num : Nat) (h : Heap α) (d s : Nat) : Heap α :=
  copyBlockLoop 4 (by omega) num d s h 0

/-- Model of `AlignedSseCopy` (part_000 lines 94–101): width-4 `_mm_load_ps` /
`_mm_store_ps` loop. -/
def AlignedSseCopy {α : Type} (num : Nat) (h : Heap α) (d s : Nat) : Heap α :=
  copyBlockLoop 4 (by omega) num d s h 0

/-- Model of `AlignedSseNonTemporalCopy` (part_000 lines 103–110): width-4
`_mm_load_ps` / `_mm_stream_ps` loop. -/
def AlignedSseNonTemporalCopy {α : Type} (num : Nat) (h : Heap α) (d s : Nat) : Heap α :=
  copyBlockLoop 4 (by omega) num d s h 0

/-- Model of `UnalignedAvxCopy` (part_000 lines 112–119): width-8 `_mm256_loadu_ps`
/ `_mm256_storeu_ps` loop. -/
def UnalignedAvxCopy {α : Type} (num : Nat) (h : Heap α) (d s : Nat) : Heap α :=
  copyBlockLoop 8 (by omega) num d s h 0

/-- Model of `AlignedAvxCopy` (part_000 lines 121–128): width-8 `_mm256_load_ps` /
`_mm256_store_ps` loop. -/
def AlignedAvxCopy {α : Type} (num : Nat) (h : Heap α) (d s : Nat) : Heap α :=
  copyBlockLoop 8 (by omega) num d s h 0

/-- Model of `AlignedAvxNonTemporalCopy` (part_000 lines 130–137): width-8
`_mm256_load_ps` / `_mm256_stream_ps` loop. -/
def AlignedAvxNonTemporalCopy {α : Type} (num : Nat) (h : Heap α) (d s : Nat) : Heap α :=
  copyBlockLoop 8 (by omega) num d s h 0

/-- Model of `NullCopy` (part_000 lines 139–140): empty body, no memory writes. -/
def NullCopy {α : Type} (num : Nat) (h : Heap α) (d s : Nat) : Heap α := h

/-- Model of `NiaveMult` (simd-mult.cpp lines 47–53): scalar
`*d++ = *a++ * *b++` loop. -/
def NiaveMult {α : Type} [Mul α] (num : Nat) (h : Heap α) (d a b : Nat) : Heap α :=
  mulBlockLoop 1 Nat.one_pos num d a b h 0

/-- Model of `UnalignedSseMult` (simd-mult.cpp lines 55–64): width-4 unaligned
load/multiply/store loop. -/
def UnalignedSseMult {α : Type} [Mul α] (num : Nat) (h : Heap α) (d a b : Nat) : Heap α :=
  mulBlockLoop 4 (by omega) num d a b h 0

/-- Model of `AlignedSseMult` (simd-mult.cpp lines 66–75): width-4 aligned
load/multiply/store loop. -/
def AlignedSseMult {α : Type} [Mul α] (num : Nat) (h : Heap α) (d a b : Nat) : Heap α :=
  mulBlockLoop 4 (by omega) num d a b h 0

/-- Model of `AlignedSseNonTemporalMult` (simd-mult.cpp lines 77–86): width-4
aligned load / multiply / streaming store loop. -/
def AlignedSseNonTemporalMult {α : Type} [Mul α] (num : Nat) (h : Heap α) (d a b : Nat) : Heap α :=
  mulBlockLoop 4 (by omega) num d a b h 0

/-- Model of `UnalignedAvxMult` (simd-mult.cpp lines 89–98): width-8 unaligned
load/multiply/store loop. -/
def UnalignedAvxMult {α : Type} [Mul α] (num : Nat) (h : Heap α) (d a b : Nat) : Heap α :=
  mulBlockLoop 8 (by omega) num d a b h 0

/-- Model of `AlignedAvxMult` (simd-mult.cpp lines 100–109): width-8 aligned
load/multiply/store loop. -/
def AlignedAvxMult {α : Type} [Mul α] (num : Nat) (h : Heap α) (d a b : Nat) : Heap α :=
  mulBlockLoop 8 (by omega) num d a b h 0

/-- Model of `AlignedAvxNonTemporalMult` (simd-mult.cpp lines 111–120): width-8
aligned load / multiply / streaming store loop. -/
def AlignedAvxNonTemporalMult {α : Type} [Mul α] (num : Nat) (h : Heap α) (d a b : Nat) : Heap α :=
  mulBlockLoop 8 (by omega) num d a b h 0

/-- Model of `NullMult` (simd-mult.cpp lines 123–124): empty body, no memory
writes. -/
def NullMult {α : Type} (num : Nat) (h : Heap α) (d a b : Nat) : Heap α := h

/-- Disjointness of the element regions `[d, d + num)` and
`[s, s + num)`. -/
def RegionsDisjoint (d s num : Nat) : Prop :=
  d + num ≤ s ∨ s + num ≤ d

/-- Characterization of the generic copy loop when the working-set size
left to process is a multiple of the width and source and destination
regions are disjoint: it copies `[s + i, s + num)` over `[d + i, d + num)`
and touches nothing else. -/
theorem copyBlockLoop_spec {α : Type} (w : Nat) (hw : 0 < w) (num d s : Nat)
    (hdisj : RegionsDisjoint d s num) :
    ∀ g i (h : Heap α), num - i = g → w ∣ (num - i) →
      copyBlockLoop w hw num d s h i =
        fun x => if d + i ≤ x ∧ x < d + num then h (s + (x - d)) else h x := by
  intro g
  induction g using Nat.strong_induction_on with
  | _ g ih =>
      intro i h hg hdvd
      by_cases hi : i < num
      · obtain ⟨c, hc⟩ := hdvd
        have hc0 : c ≠ 0 := by rintro rfl; omega
        obtain ⟨c', rfl⟩ := Nat.exists_eq_succ_of_ne_zero hc0
        rw [Nat.mul_succ] at hc
        have hiw : i + w ≤ num := by omega
        have hdvd' : w ∣ (num - (i + w)) := ⟨c', by omega⟩
        rw [copyBlockLoop, if_pos hi,
          ih (num - (i + w)) (by omega) (i + w) _ rfl hdvd']
        funext x
        by_cases hx1 : d + (i + w) ≤ x ∧ x < d + num
        · rw [if_pos hx1, if_pos (by omega)]
          have : ¬ (d + i ≤ s + (x - d) ∧ s + (x - d) < d + i + w) := by
            rcases hdisj with hd | hd <;> omega
          rw [writeBlock, if_neg this]
        · rw [if_neg hx1]
          by_cases hx2 : d + i ≤ x ∧ x < d + i + w
          · rw [writeBlock, if_pos hx2, if_pos (by omega)]
            have : s + i + (x - (d + i)) = s + (x - d) := by omega
            rw [this]
          · rw [writeBlock, if_neg hx2, if_neg (by omega)]
      · rw [copyBlockLoop, if_neg hi]
        funext x
        rw [if_neg (by omega)]

/-- Characterization of the generic multiply loop when the remaining
working set is a multiple of the width and the destination region is
disjoint from both source regions: it stores the element-wise products of
`[a + i, a + num)` and `[b + i, b + num)` into `[d + i, d + num)` and
touches nothing else. -/
theorem mulBlockLoop_spec {α : Type} [Mul α] (w : Nat) (hw : 0 < w)
    (num d a b : Nat) (hda : RegionsDisjoint d a num)
    (hdb : RegionsDisjoint d b num) :
    ∀ g i (h : Heap α), num - i = g → w ∣ (num - i) →
      mulBlockLoop w hw num d a b h i =
        fun x => if d + i ≤ x ∧ x < d + num then h (a + (x - d)) * h (b + (x - d)) else h x := by
  intro g
  induction g using Nat.strong_induction_on with
  | _ g ih =>
      intro i h hg hdvd
      by_cases hi : i < num
      · obtain ⟨c, hc⟩ := hdvd
        have hc0 : c ≠ 0 := by rintro rfl; omega
        obtain ⟨c', rfl⟩ := Nat.exists_eq_succ_of_ne_zero hc0
        rw [Nat.mul_succ] at hc
        have hiw : i + w ≤ num := by omega
        have hdvd' : w ∣ (num - (i + w)) := ⟨c', by omega⟩
        rw [mulBlockLoop, if_pos hi,
          ih (num - (i + w)) (by omega) (i + w) _ rfl hdvd']
        funext x
        by_cases hx1 : d + (i + w) ≤ x ∧ x < d + num
        · rw [if_pos hx1, if_pos (by omega)]
          have ha' : ¬ (d + i ≤ a + (x - d) ∧ a + (x - d) < d + i + w) := by
            rcases hda with hd | hd <;> omega
          have hb' : ¬ (d + i ≤ b + (x - d) ∧ b + (x - d) < d + i + w) := by
            rcases hdb with hd | hd <;> omega
          simp only [writeBlock]
          rw [if_neg ha', if_neg hb']
        · rw [if_neg hx1]
          by_cases hx2 : d + i ≤ x ∧ x < d + i + w
          · rw [writeBlock, if_pos hx2, if_pos (by omega)]
            have ha' : a + i + (x - (d + i)) = a + (x - d) := by omega
            have hb' : b + i + (x - (d + i)) = b + (x - d) := by omega
            rw [ha', hb']
          · rw [writeBlock, if_neg hx2, if_neg (by omega)]
      · rw [mulBlockLoop, if_neg hi]
        funext x
        rw [if_neg (by omega)]

/-! ## Operation descriptors

Enumerations of the real (non-no-op) variants of the two programs, with
their required vector widths (in elements), used to quantify "for every
non-no-op operation". -/

/-- The real copy variants of part_000 in declared order. -/
inductive CopyOp : Type
  | memCopy | stdCopy | simpleCopy
  | unalignedSse | alignedSse | alignedSseNT
  | unalignedAvx | alignedAvx | alignedAvxNT
deriving DecidableEq

/-- Vector width (elements per inner step) of each copy variant. -/
def CopyOp.width : CopyOp → Nat
  | .memCopy => 1
  | .stdCopy => 1
  | .simpleCopy => 1
  | .unalignedSse => 4
  | .alignedSse => 4
  | .alignedSseNT => 4
  | .unalignedAvx => 8
  | .alignedAvx => 8
  | .alignedAvxNT => 8

/-- The heap transformation of each copy variant. -/
def CopyOp.run {α : Type} : CopyOp → Nat → Heap α → Nat → Nat → Heap α
  | .memCopy => MemCopy
  | .stdCopy => StdCopy
  | .simpleCopy => SimpleCopy
  | .unalignedSse => UnalignedSseCopy
  | .alignedSse => AlignedSseCopy
  | .alignedSseNT => AlignedSseNonTemporalCopy
  | .unalignedAvx => UnalignedAvxCopy
  | .alignedAvx => AlignedAvxCopy
  | .alignedAvxNT => AlignedAvxNonTemporalCopy

/-- The real multiply variants of simd-mult.cpp in declared order. -/
inductive MultOp : Type
  | niave
  | unalignedSse | alignedSse | alignedSseNT
  | unalignedAvx | alignedAvx | alignedAvxNT
deriving DecidableEq

/-- Vector width (elements per inner step) of each multiply variant. -/
def MultOp.width : MultOp → Nat
  | .niave => 1
  | .unalignedSse => 4
  | .alignedSse => 4
  | .alignedSseNT => 4
  | .unalignedAvx => 8
  | .alignedAvx => 8
  | .alignedAvxNT => 8

/-- The heap transformation of each multiply variant. -/
def MultOp.run {α : Type} [Mul α] : MultOp → Nat → Heap α → Nat → Nat → Nat → Heap α
  | .niave => NiaveMult
  | .unalignedSse => UnalignedSseMult
  | .alignedSse => AlignedSseMult
  | .alignedSseNT => AlignedSseNonTemporalMult
  | .unalignedAvx => UnalignedAvxMult
  | .alignedAvx => AlignedAvxMult
  | .alignedAvxNT => AlignedAvxNonTemporalMult

/-- Every copy variant, on a working set that is a multiple of its width
and disjoint source/destination regions, equals the whole-region copy. -/
theorem copyRun_spec {α : Type} (op : CopyOp) (num d s : Nat) (h : Heap α)
    (hdvd : op.width ∣ num) (hdisj : RegionsDisjoint d s num) :
    op.run num h d s =
      fun x => if d ≤ x ∧ x < d + num then h (s + (x - d)) else h x := by
  have key : ∀ (w : Nat) (hw : 0 < w), w ∣ num →
      copyBlockLoop w hw num d s h 0 =
        fun x => if d ≤ x ∧ x < d + num then h (s + (x - d)) else h x := by
    intro w hw hdvd'
    rw [copyBlockLoop_spec w hw num d s hdisj (num - 0) 0 h rfl
      (by simpa using hdvd')]
    simp only [Nat.add_zero]
  cases op with
  | memCopy => rfl
  | stdCopy => exact key 1 Nat.one_pos hdvd
  | simpleCopy => exact key 1 Nat.one_pos hdvd
  | unalignedSse => exact key 4 (by omega) hdvd
  | alignedSse => exact key 4 (by omega) hdvd
  | alignedSseNT => exact key 4 (by omega) hdvd
  | unalignedAvx => exact key 8 (by omega) hdvd
  | alignedAvx => exact key 8 (by omega) hdvd
  | alignedAvxNT => exact key 8 (by omega) hdvd

/-- Every multiply variant, on a working set that is a multiple of its
width with the destination region disjoint from both source regions,
equals the whole-region element-wise multiply. -/
theorem multRun_spec {α : Type} [Mul α] (op : MultOp) (num d a b : Nat)
    (h : Heap α) (hdvd : op.width ∣ num) (hda : RegionsDisjoint d a num)
    (hdb : RegionsDisjoint d b num) :
    op.run num h d a b =
      fun x => if d ≤ x ∧ x < d + num then h (a + (x - d)) * h (b + (x - d)) else h x := by
  have key : ∀ (w : Nat) (hw : 0 < w), w ∣ num →
      mulBlockLoop w hw num d a b h 0 =
        fun x => if d ≤ x ∧ x < d + num then h (a + (x - d)) * h (b + (x - d)) else h x := by
    intro w hw hdvd'
    rw [mulBlockLoop_spec w hw num d a b hda hdb (num - 0) 0 h rfl
      (by simpa using hdvd')]
    simp only [Nat.add_zero]
  cases op with
  | niave => exact key 1 Nat.one_pos hdvd
  | unalignedSse => exact key 4 (by omega) hdvd
  | alignedSse => exact key 4 (by omega) hdvd
  | alignedSseNT => exact key 4 (by omega) hdvd
  | unalignedAvx => exact key 8 (by omega) hdvd
  | alignedAvx => exact key 8 (by omega) hdvd
  | alignedAvxNT => exact key 8 (by omega) hdvd

/-! ## Correctness verifier and executor

The verification scan of `Run` (simd-mult.cpp lines 143–150, part_000
lines 158–165):

```
for(std::size_t i = 0; i < gNumFloats; ++i)
{
    if(d[i] != expected_i)
    {
        std::cerr << "Error in " << name << " " << d[i] << " != " << expected_i << std::endl;
        std::exit(1);
    }
}
```

`verifyScan` returns the first mismatch `(index, actual, expected)` or
`none`; the diagnostic the code prints carries the operation name and the
two values — the index `i` itself is not part of the output. -/

/-- First mismatch of the verification scan, starting at index `i`. -/
def verifyScan {α : Type} [DecidableEq α] (num : Nat) (dv ev : Nat → α)
    (i : Nat) : Option (Nat × α × α) :=
  if i < num then
    if dv i = ev i then verifyScan num dv ev (i + 1) else some (i, dv i, ev i)
  else none
termination_by num - i
decreasing_by omega

/-- The diagnostic `Run` writes to `cerr` on a mismatch:
`"Error in " << name << " " << actual << " != " << expected`. -/
structure MismatchReport (α : Type) where
  opName : String
  actual : α
  expected : α
deriving DecidableEq

/-- What `Run` emits to the result stream on success. -/
inductive Emitted : Type
  | placeholder
  | timeSample
deriving DecidableEq

/-- What the mismatch found by `verifyScan` means: it lies in range, holds
the scanned values, they differ, and every earlier index agreed. -/
theorem verifyScan_spec {α : Type} [DecidableEq α] (num : Nat)
    (dv ev : Nat → α) :
    ∀ g i0 i a e, num - i0 = g → verifyScan num dv ev i0 = some (i, a, e) →
      i0 ≤ i ∧ i < num ∧ a = dv i ∧ e = ev i ∧ dv i ≠ ev i ∧
        ∀ j, i0 ≤ j → j < i → dv j = ev j := by
  intro g
  induction g using Nat.strong_induction_on with
  | _ g ih =>
      intro i0 i a e hg hscan
      rw [verifyScan] at hscan
      by_cases h0 : i0 < num
      · rw [if_pos h0] at hscan
        by_cases heq : dv i0 = ev i0
        · rw [if_pos heq] at hscan
          obtain ⟨h1, h2, h3, h4, h5, h6⟩ :=
            ih (num - (i0 + 1)) (by omega) (i0 + 1) i a e rfl hscan
          refine ⟨by omega, h2, h3, h4, h5, ?_⟩
          intro j hj1 hj2
          rcases Nat.eq_or_lt_of_le hj1 with rfl | hj1'
          · exact heq
          · exact h6 j hj1' hj2
        · rw [if_neg heq] at hscan
          obtain ⟨rfl, rfl, rfl⟩ : i0 = i ∧ dv i0 = a ∧ ev i0 = e := by
            injection hscan with hs
            injection hs with hs1 hs2
            injection hs2 with hs2 hs3
            exact ⟨hs1.symm ▸ rfl, hs2, hs3⟩
          exact ⟨Nat.le_refl _, h0, rfl, rfl, heq, fun j hj1 hj2 => by omega⟩
      · rw [if_neg h0] at hscan
        cases hscan

/-- Model of `std::fill(d, d + gNumFloats, 0.f)` in `Run`: zero the destination's
working-set region. -/
def fillZero {α : Type} [Zero α] (h : Heap α) (d num : Nat) : Heap α :=
  fun x => if d ≤ x ∧ x < d + num then 0 else h x

/-! ### The generic `Run` of the copy program (part_000 lines 144–174)

`Run` first re-aligns its pointers; the byte-level alignment arithmetic is
`align` above.  The executor model below receives the already aligned
element addresses `d` and `s` (for the placeholder columns `main` passes
the source buffer for both, so `d = s` there) and performs the remaining
steps: zero-fill, repetition loop, verification, emission. -/

/-- Heap state after the zero-fill and the timed repetition loop of the
copy program's generic `Run`. -/
def RunCopyHeap {α : Type} [Zero α]
    (op : Nat → Heap α → Nat → Nat → Heap α) (num total : Nat)
    (hnum : 0 < num) (d s : Nat) (h : Heap α) : Heap α :=
  runLoop (fun hh => op num hh d s) total num hnum (fillZero h d num) 0

/-- Verdict of the copy program's generic `Run`: the verification scan
compares `d[i]` with `s[i]` on the final heap; a mismatch prints the
diagnostic and calls `exit(1)` (modelled as `Except.error` — no timing
sample is emitted), otherwise the elapsed time is emitted. -/
def RunCopyVerdict {α : Type} [Zero α] [DecidableEq α]
    (op : Nat → Heap α → Nat → Nat → Heap α) (name : String)
    (num total : Nat) (hnum : 0 < num) (d s : Nat) (h : Heap α) :
    Except (MismatchReport α) Emitted :=
  match verifyScan num (fun i => RunCopyHeap op num total hnum d s h (d + i))
      (fun i => RunCopyHeap op num total hnum d s h (s + i)) 0 with
  | some (_, act, exp) => Except.error ⟨name, act, exp⟩
  | none => Except.ok Emitted.timeSample

/-- Heap state after the zero-fill and the timed repetition loop of the
multiply program's generic `Run` (simd-mult.cpp lines 129–159). -/
def RunMultHeap {α : Type} [Zero α] [Mul α]
    (op : Nat → Heap α → Nat → Nat → Nat → Heap α) (num total : Nat)
    (hnum : 0 < num) (d a b : Nat) (h : Heap α) : Heap α :=
  runLoop (fun hh => op num hh d a b) total num hnum (fillZero h d num) 0

/-- Verdict of the multiply program's generic `Run`: verification compares
`d[i]` with `a[i] * b[i]` on the final heap. -/
def RunMultVerdict {α : Type} [Zero α] [Mul α] [DecidableEq α]
    (op : Nat → Heap α → Nat → Nat → Nat → Heap α) (name : String)
    (num total : Nat) (hnum : 0 < num) (d a b : Nat) (h : Heap α) :
    Except (MismatchReport α) Emitted :=
  match verifyScan num (fun i => RunMultHeap op num total hnum d a b h (d + i))
      (fun i => RunMultHeap op num total hnum d a b h (a + i) *
        RunMultHeap op num total hnum d a b h (b + i)) 0 with
  | some (_, act, exp) => Except.error ⟨name, act, exp⟩
  | none => Except.ok Emitted.timeSample

/-- The `Run<NullMult>` specialization of the multiply program
(simd-mult.cpp lines 161–165): its whole body is `std::cout << "," << 0;`
— no alignment, no fill, no invocation, no verification; the heap is
untouched and the placeholder `0` is emitted. -/
def RunNullMultHeap {α : Type} (h : Heap α) : Heap α := h

/-- Verdict of the `Run<NullMult>` specialization: always the placeholder,
never an error. -/
def RunNullMultVerdict {α : Type} : Except (MismatchReport α) Emitted :=
  Except.ok Emitted.placeholder

/-! ## Sweep dispatch (observable outcomes per column)

`main` of each program decides, per alignment offset `k` and column, which
`Run` instantiation executes (simd-mult.cpp lines 235–270, part_000 lines
254–288).  `RunOutcome` records the observables the claims speak about:
how often the column's real operation and the no-op placeholder are
invoked, whether the correctness verifier runs, and what is emitted. -/

/-- Observables of one `Run` call for one column. -/
structure RunOutcome : Type where
  realOpInvocations : Nat
  nullOpInvocations : Nat
  verifierInvoked : Bool
  emitted : Emitted
deriving DecidableEq

/-- Outcome of a genuine timed run: the operation is invoked once per loop
iteration, the verifier runs, an elapsed-time sample is emitted. -/
def realRunOutcome (total num : Nat) (hnum : 0 < num) : RunOutcome :=
  ⟨runCount total num hnum, 0, true, Emitted.timeSample⟩

/-- Outcome of the multiply program's `Run<NullMult>` specialization:
nothing is invoked, nothing is verified, the placeholder `0` is emitted. -/
def nullMultOutcome : RunOutcome :=
  ⟨0, 0, false, Emitted.placeholder⟩

/-- Outcome of a copy-program placeholder column: `NullCopy` goes through
the generic `Run`, so the no-op itself is invoked once per loop iteration,
the verifier runs (over `d = s`), and the elapsed time is emitted. -/
def nullCopyOutcome (total num : Nat) (hnum : 0 < num) : RunOutcome :=
  ⟨0, runCount total num hnum, true, Emitted.timeSample⟩

/-- The columns of the multiply program's result table, in declared
order. -/
inductive MultColumn : Type
  | forLoop | unalignedSse | unalignedAvx
  | alignedSse | alignedSseStream | alignedAvx | alignedAvxStream
deriving DecidableEq

/-- The columns of the copy program's result table, in declared order. -/
inductive CopyColumn : Type
  | memcpyCol | stdCopyCol | forLoop | unalignedSse | unalignedAvx
  | alignedSse | alignedSseStream | alignedAvx | alignedAvxStream
deriving DecidableEq

/-- Column dispatch of the multiply program's `main` (simd-mult.cpp lines
235–270): alignment-gated columns fall back to the `Run<NullMult>`
specialization when `k % 16 != 0` (SSE) or `k % 32 != 0` / AVX disabled
(AVX). -/
def multColumnOutcome (total num : Nat) (hnum : 0 < num) (k : Nat)
    (hasAvx : Bool) : MultColumn → RunOutcome
  | .forLoop => realRunOutcome total num hnum
  | .unalignedSse => realRunOutcome total num hnum
  | .unalignedAvx =>
      if hasAvx then realRunOutcome total num hnum else nullMultOutcome
  | .alignedSse =>
      if k % 16 = 0 then realRunOutcome total num hnum else nullMultOutcome
  | .alignedSseStream =>
      if k % 16 = 0 then realRunOutcome total num hnum else nullMultOutcome
  | .alignedAvx =>
      if k % 32 = 0 ∧ hasAvx then realRunOutcome total num hnum else nullMultOutcome
  | .alignedAvxStream =>
      if k % 32 = 0 ∧ hasAvx then realRunOutcome total num hnum else nullMultOutcome

/-- Column dispatch of the copy program's `main` (part_000 lines 254–288):
the program has no `Run` specialization for `NullCopy`, so gated-out
columns run `NullCopy` through the generic `Run` (with the source buffer
passed as the destination). -/
def copyColumnOutcome (total num : Nat) (hnum : 0 < num) (k : Nat)
    (hasAvx : Bool) : CopyColumn → RunOutcome
  | .memcpyCol => realRunOutcome total num hnum
  | .stdCopyCol => realRunOutcome total num hnum
  | .forLoop => realRunOutcome total num hnum
  | .unalignedSse => realRunOutcome total num hnum
  | .unalignedAvx =>
      if hasAvx then realRunOutcome total num hnum else nullCopyOutcome total num hnum
  | .alignedSse =>
      if k % 16 = 0 then realRunOutcome total num hnum else nullCopyOutcome total num hnum
  | .alignedSseStream =>
      if k % 16 = 0 then realRunOutcome total num hnum else nullCopyOutcome total num hnum
  | .alignedAvx =>
      if k % 32 = 0 ∧ hasAvx then realRunOutcome total num hnum
      else nullCopyOutcome total num hnum
  | .alignedAvxStream =>
      if k % 32 = 0 ∧ hasAvx then realRunOutcome total num hnum
      else nullCopyOutcome total num hnum

/-! ## Process exit code

`main` of both programs (simd-mult.cpp lines 185–296, part_000 lines
217–314): an option-parse failure exits with code 1; the configuration
check `if(gTotalFloats < gNumFloats)` prints a diagnostic and the usage
text to `cerr` and then does `return 0;`; a verification failure during
the sweep calls `std::exit(1)`; a completed sweep returns 0. -/

/-- Process exit code as a function of the three outcome-determining
conditions. -/
def mainExitCode (parseError : Bool) (total num : Nat)
    (verifyFails : Bool) : Nat :=
  if parseError then 1
  else if total < num then 0
  else if verifyFails then 1
  else 0

/-- Whether `main` prints the configuration diagnostic
(`"total-floats must be greater than num-floats"` plus usage) to the
error stream. -/
def configDiagnosticPrinted (total num : Nat) : Bool :=
  decide (total < num)

/-! ## Claims -/

/-- C1 (counterexample): the claim says the executor invokes the operation
exactly `floor(total / num)` times.  At `total = 10`, `num = 4` the loop
`for(i = 0; i < total; i += num)` runs for `i = 0, 4, 8` — three
invocations — while `floor(10 / 4) = 2`: counting invocations with a
counter-incrementing operation, the loop yields 3, not 2. -/
theorem c1_floor_counterexample :
    runLoop (fun c : Nat => c + 1) 10 4 (by norm_num) 0 0 = 3 ∧
      (10 : Nat) / 4 = 2 ∧ (3 : Nat) ≠ 2 := by
  refine ⟨?_, by norm_num, by norm_num⟩
  rw [runLoop_eq_iterate (fun c : Nat => c + 1) 10 4 _ (10 - 0) 0 0 rfl,
    runCountFrom_eq 10 4 _ (10 - 0) 0 rfl]
  norm_num

/-- C1 (amended): for every configuration with `num > 0` and
`total ≥ num`, the timed-run executor invokes the operation exactly
`ceil(total / num) = (total + num - 1) / num` times — a final partial
block is still run as one complete `num`-sized pass, so up to `num - 1`
elements beyond `total` are processed (none are left unprocessed) — and
the machine state after the loop is exactly the operation iterated that
many times: no state other than the iteration counter is advanced between
calls. -/
theorem c1_executor_ceil_invocations {σ : Type} (f : σ → σ)
    (total num : Nat) (hnum : 0 < num) (htot : num ≤ total) (s : σ) :
    runLoop f total num hnum s 0 = f^[(total + num - 1) / num] s := by
  rw [runLoop_eq_iterate f total num hnum (total - 0) 0 s rfl,
    runCountFrom_eq total num hnum (total - 0) 0 rfl]
  simp only [Nat.sub_zero]

/-- Witness for C1 at `total = 13`, `num = 5`: three invocations. -/
theorem c1_witness :
    runLoop (fun c : Nat => c + 1) 13 5 (by norm_num) 0 0 =
      (fun c : Nat => c + 1)^[(13 + 5 - 1) / 5] 0 :=
  c1_executor_ceil_invocations (fun c : Nat => c + 1) 13 5 (by norm_num)
    (by norm_num) 0

/-- C2: for every pointer `p` and target offset `k ≤ 255`, `align(p, k)`
returns the lowest address `a ≥ p` with `a % 256 = k`, and the advance is
less than 256 bytes (never walking backward). -/
theorem c2_align_lowest (p k : Nat) (hk : k < 256) :
    p ≤ align p k hk ∧ align p k hk % 256 = k ∧ align p k hk - p < 256 ∧
      ∀ a, p ≤ a → a % 256 = k → align p k hk ≤ a := by
  have hc := alignLoop_closed k hk ((k + 256 - p % 256) % 256) p rfl
  rw [align, hc]
  refine ⟨by omega, by omega, by omega, ?_⟩
  intro a hpa hak
  omega

/-- Witness for C2 at `p = 1000`, `k = 7`: the result is `≥ 1000`, has
residue 7, advances `< 256`, and is at most the competing address 1031
(which satisfies `1031 % 256 = 7`). -/
theorem c2_witness :
    1000 ≤ align 1000 7 (by norm_num) ∧
      align 1000 7 (by norm_num) % 256 = 7 ∧
      align 1000 7 (by norm_num) - 1000 < 256 ∧
      align 1000 7 (by norm_num) ≤ 1031 := by
  obtain ⟨h1, h2, h3, h4⟩ := c2_align_lowest 1000 7 (by norm_num)
  exact ⟨h1, h2, h3, h4 1031 (by norm_num) (by norm_num)⟩

/-- C10: the alignment loop is total exactly under the precondition
`k < 256`.  For `k ≤ 255` it stops after at most 255 iterations (each
iteration advances the address by exactly one, so the iteration count is
the total advance `alignLoop k hk p - p`); for `k ≥ 256` the loop's exit
condition `address % 256 == k` can never become true, since every residue
is `< 256 ≤ k`, so the loop would never terminate. -/
theorem c10_align_termination (k : Nat) :
    (∀ (hk : k < 256) (p : Nat), alignLoop k hk p - p ≤ 255) ∧
      (256 ≤ k → ∀ address : Nat, address % 256 ≠ k) := by
  constructor
  · intro hk p
    have hc := alignLoop_closed k hk ((k + 256 - p % 256) % 256) p rfl
    omega
  · intro hk address
    omega

/-- Witness for C10: at `k = 7` the loop from `p = 3` advances at most
255; at `k = 300` the address `5` fails the exit condition. -/
theorem c10_witness :
    alignLoop 7 (by norm_num) 3 - 3 ≤ 255 ∧ (5 : Nat) % 256 ≠ 300 :=
  ⟨(c10_align_termination 7).1 (by norm_num) 3,
    (c10_align_termination 300).2 (by norm_num) 5⟩

/-- C4 (code evaluation at the failing input): with well-formed options
and `total_elements = 8 < 16 = num_elements`, `main` prints the
configuration diagnostic but exits with code 0, not 1 — the claim (and
the spec) say 1.  The other exit codes match the claim: 1 on a
correctness-verification failure, 1 on an option-parse error, 0 on a
completed sweep. -/
theorem c4_config_error_exit_code :
    mainExitCode false 8 16 false = 0 ∧
      mainExitCode false 8 16 false ≠ 1 ∧
      configDiagnosticPrinted 8 16 = true ∧
      mainExitCode false 100 10 true = 1 ∧
      mainExitCode true 100 10 false = 1 ∧
      mainExitCode false 100 10 false = 0 := by
  norm_num [mainExitCode, configDiagnosticPrinted]

/-- C3 (counterexample): at sweep offset 4 (`4 % 16 ≠ 0`) the copy
program's "Aligned Sse" column does not behave as the claim says: the
no-op is dispatched through the generic `Run`, so the correctness
verifier IS invoked and the emitted value is the elapsed-time sample,
not the placeholder 0 (and `NullCopy` itself is invoked once per loop
iteration — here twice). -/
theorem c3_copy_program_counterexample :
    (4 : Nat) % 16 ≠ 0 ∧
      (copyColumnOutcome 8 4 (by norm_num) 4 true CopyColumn.alignedSse).verifierInvoked = true ∧
      (copyColumnOutcome 8 4 (by norm_num) 4 true CopyColumn.alignedSse).emitted = Emitted.timeSample ∧
      Emitted.timeSample ≠ Emitted.placeholder ∧
      (copyColumnOutcome 8 4 (by norm_num) 4 true CopyColumn.alignedSse).nullOpInvocations = 2 := by
  refine ⟨by norm_num, ?_, ?_, by simp, ?_⟩
  · simp [copyColumnOutcome, nullCopyOutcome]
  · simp [copyColumnOutcome, nullCopyOutcome]
  · simp only [copyColumnOutcome, nullCopyOutcome]
    rw [if_neg (by norm_num)]
    rw [runCount, runCountFrom_eq 8 4 _ (8 - 0) 0 rfl]

/-- C3 (amended): in the multiply program the claim holds as stated — an
alignment-gated column whose granularity does not divide the sweep offset
runs the `Run<NullMult>` specialization: no operation invocation at all,
no verifier, placeholder 0 emitted.  In the copy program the gated real
operation is likewise never invoked, but the substituted `NullCopy` runs
through the generic executor: the verifier runs and the elapsed time is
emitted instead of the placeholder. -/
theorem c3_alignment_gating (total num : Nat) (hnum : 0 < num) (k : Nat)
    (hasAvx : Bool) :
    (k % 16 ≠ 0 →
      multColumnOutcome total num hnum k hasAvx MultColumn.alignedSse = nullMultOutcome ∧
      multColumnOutcome total num hnum k hasAvx MultColumn.alignedSseStream = nullMultOutcome) ∧
    (k % 32 ≠ 0 →
      multColumnOutcome total num hnum k hasAvx MultColumn.alignedAvx = nullMultOutcome ∧
      multColumnOutcome total num hnum k hasAvx MultColumn.alignedAvxStream = nullMultOutcome) ∧
    (nullMultOutcome.realOpInvocations = 0 ∧
      nullMultOutcome.nullOpInvocations = 0 ∧
      nullMultOutcome.verifierInvoked = false ∧
      nullMultOutcome.emitted = Emitted.placeholder) ∧
    (k % 16 ≠ 0 →
      (copyColumnOutcome total num hnum k hasAvx CopyColumn.alignedSse).realOpInvocations = 0 ∧
      (copyColumnOutcome total num hnum k hasAvx CopyColumn.alignedSse).verifierInvoked = true ∧
      (copyColumnOutcome total num hnum k hasAvx CopyColumn.alignedSse).emitted = Emitted.timeSample) := by
  refine ⟨fun hk => ?_, fun hk => ?_, by simp [nullMultOutcome], fun hk => ?_⟩
  · constructor <;> simp [multColumnOutcome, hk]
  · constructor <;> simp [multColumnOutcome, hk]
  · refine ⟨?_, ?_, ?_⟩ <;>
      simp [copyColumnOutcome, hk, nullCopyOutcome]

/-- Witness for C3 at offset `k = 20` (`20 % 16 = 4 ≠ 0`),
`total = 8`, `num = 2`. -/
theorem c3_witness :
    multColumnOutcome 8 2 (by norm_num) 20 true MultColumn.alignedSse = nullMultOutcome ∧
      (copyColumnOutcome 8 2 (by norm_num) 20 true CopyColumn.alignedSse).emitted = Emitted.timeSample := by
  obtain ⟨h1, h2, h3, h4⟩ := c3_alignment_gating 8 2 (by norm_num) 20 true
  exact ⟨(h1 (by norm_num)).1, (h4 (by norm_num)).2.2⟩

/-- C7 (counterexample): the claim quantifies over every working-set size,
but the strided variants overrun sizes that are not a multiple of their
width.  `UnalignedSseMult` with `num = 2` (destination at 0, sources at
10 and 20, heap value = address) executes one full width-4 pass and
writes the element at index 3 ≥ 2: its value changes from 3 to
`13 * 23 = 299`. -/
theorem c7_overrun_counterexample :
    UnalignedSseMult 2 (fun x => (x : Int)) 0 10 20 3 = 299 ∧
      (2 : Nat) ≤ 3 ∧ (299 : Int) ≠ 3 := by
  refine ⟨?_, by norm_num, by norm_num⟩
  rw [UnalignedSseMult, mulBlockLoop, if_pos (by norm_num : (0 : Nat) < 2),
    mulBlockLoop, if_neg (by norm_num : ¬ (0 + 4 : Nat) < 2), writeBlock]
  norm_num

/-- C7 (amended): every non-no-op variant of either program, for every
working-set size that is a multiple of the variant's required vector
width (every size, for the scalar variants of width 1), writes
`dst[i] = expected(src[i], ...)` for every `i < num` (`expected = src[i]`
for copy, `a[i] * b[i]` for multiply) and writes no element outside
`[dst, dst + num)`; for sizes not a multiple of the width the strided
variants write past the working set. -/
theorem c7_exact_elements {α : Type} [Mul α] :
    (∀ (op : CopyOp) (num d s : Nat) (h : Heap α), op.width ∣ num →
      RegionsDisjoint d s num →
      (∀ i, i < num → op.run num h d s (d + i) = h (s + i)) ∧
      (∀ x, x < d ∨ d + num ≤ x → op.run num h d s x = h x)) ∧
    (∀ (op : MultOp) (num d a b : Nat) (h : Heap α), op.width ∣ num →
      RegionsDisjoint d a num → RegionsDisjoint d b num →
      (∀ i, i < num → op.run num h d a b (d + i) = h (a + i) * h (b + i)) ∧
      (∀ x, x < d ∨ d + num ≤ x → op.run num h d a b x = h x)) := by
  constructor
  · intro op num d s h hdvd hdisj
    have hpt : ∀ y, op.run num h d s y =
        if d ≤ y ∧ y < d + num then h (s + (y - d)) else h y := by
      intro y
      rw [copyRun_spec op num d s h hdvd hdisj]
    constructor
    · intro i hi
      rw [hpt (d + i), if_pos ⟨Nat.le_add_right d i, by omega⟩,
        show d + i - d = i by omega]
    · intro x hx
      rw [hpt x, if_neg (by omega)]
  · intro op num d a b h hdvd hda hdb
    have hpt : ∀ y, op.run num h d a b y =
        if d ≤ y ∧ y < d + num then h (a + (y - d)) * h (b + (y - d)) else h y := by
      intro y
      rw [multRun_spec op num d a b h hdvd hda hdb]
    constructor
    · intro i hi
      rw [hpt (d + i), if_pos ⟨Nat.le_add_right d i, by omega⟩,
        show d + i - d = i by omega]
    · intro x hx
      rw [hpt x, if_neg (by omega)]

/-- Witness for C7: `UnalignedSseCopy` at `num = 4` copies element 2, and
`NiaveMult` at `num = 3` leaves the out-of-range address 30 untouched. -/
theorem c7_witness :
    CopyOp.unalignedSse.run 4 (fun x => (x : Int)) 0 4 (0 + 2) =
      (fun x => (x : Int)) (4 + 2) ∧
    MultOp.niave.run 3 (fun x => (x : Int)) 0 10 20 30 =
      (fun x => (x : Int)) 30 := by
  constructor
  · exact ((c7_exact_elements (α := Int)).1 CopyOp.unalignedSse 4 0 4 _
      (by decide) (Or.inl (by norm_num))).1 2 (by norm_num)
  · exact ((c7_exact_elements (α := Int)).2 MultOp.niave 3 0 10 20 _
      (by decide) (Or.inl (by norm_num)) (Or.inl (by norm_num))).2 30
      (Or.inr (by norm_num))

/-- C8: every non-no-op copy variant, for a working-set size that is a
multiple of its required vector width, run once over a zero-initialized
destination and a source filled with the constant `v`, leaves every
destination element of the working set equal to `v`, and running it a
second time on the resulting buffers yields an identical destination
(idempotence). -/
theorem c8_copy_constant_idempotent {α : Type} [Zero α] (op : CopyOp)
    (num d s : Nat) (v : α) (h : Heap α) (hdvd : op.width ∣ num)
    (hdisj : RegionsDisjoint d s num)
    (hsrc : ∀ i, i < num → h (s + i) = v)
    (hdst : ∀ i, i < num → h (d + i) = 0) :
    (∀ i, i < num → op.run num h d s (d + i) = v) ∧
      op.run num (op.run num h d s) d s = op.run num h d s := by
  have hpt : ∀ y, op.run num h d s y =
      if d ≤ y ∧ y < d + num then h (s + (y - d)) else h y := by
    intro y
    rw [copyRun_spec op num d s h hdvd hdisj]
  have hpt2 : ∀ y, op.run num (op.run num h d s) d s y =
      if d ≤ y ∧ y < d + num then op.run num h d s (s + (y - d))
      else op.run num h d s y := by
    intro y
    rw [copyRun_spec op num d s (op.run num h d s) hdvd hdisj]
  constructor
  · intro i hi
    rw [hpt (d + i), if_pos ⟨Nat.le_add_right d i, by omega⟩,
      show d + i - d = i by omega]
    exact hsrc i hi
  · funext x
    rw [hpt2 x]
    by_cases hx : d ≤ x ∧ x < d + num
    · rw [if_pos hx, hpt (s + (x - d)),
        if_neg (by rcases hdisj with hd | hd <;> omega), hpt x, if_pos hx]
    · rw [if_neg hx]

/-- Witness for C8: `SimpleCopy` with `num = 2`, destination `[0, 2)`
zeroed, source `[10, 12)` filled with 5. -/
theorem c8_witness :
    CopyOp.simpleCopy.run 2 (fun x => if x < 10 then (0 : Int) else 5) 0 10 (0 + 1) = 5 ∧
      CopyOp.simpleCopy.run 2
          (CopyOp.simpleCopy.run 2 (fun x => if x < 10 then (0 : Int) else 5) 0 10) 0 10 =
        CopyOp.simpleCopy.run 2 (fun x => if x < 10 then (0 : Int) else 5) 0 10 := by
  obtain ⟨h1, h2⟩ := c8_copy_constant_idempotent CopyOp.simpleCopy 2 0 10 (5 : Int)
    (fun x => if x < 10 then (0 : Int) else 5) (by decide)
    (Or.inl (by norm_num))
    (fun i hi => by simp only []; rw [if_neg (by omega)])
    (fun i hi => by simp only [Nat.zero_add]; rw [if_pos (by omega)])
  exact ⟨h1 1 (by norm_num), h2⟩

/-- C9: every non-no-op multiply variant, for a working-set size that is a
multiple of its vector width, given two sources filled with the constants
`v1` and `v2`, leaves every destination element of the working set equal
to `v1 * v2` — the very product the embedded multiplication computes. -/
theorem c9_mult_constant {α : Type} [Mul α] (op : MultOp)
    (num d a b : Nat) (v1 v2 : α) (h : Heap α) (hdvd : op.width ∣ num)
    (hda : RegionsDisjoint d a num) (hdb : RegionsDisjoint d b num)
    (ha : ∀ i, i < num → h (a + i) = v1)
    (hb : ∀ i, i < num → h (b + i) = v2) :
    ∀ i, i < num → op.run num h d a b (d + i) = v1 * v2 := by
  have hpt : ∀ y, op.run num h d a b y =
      if d ≤ y ∧ y < d + num then h (a + (y - d)) * h (b + (y - d)) else h y := by
    intro y
    rw [multRun_spec op num d a b h hdvd hda hdb]
  intro i hi
  rw [hpt (d + i), if_pos ⟨Nat.le_add_right d i, by omega⟩,
    show d + i - d = i by omega, ha i hi, hb i hi]

/-- Witness for C9: `AlignedAvxMult` with `num = 8`, sources at 10 and 20
filled with 6 and 7, destination at 0. -/
theorem c9_witness :
    MultOp.alignedAvx.run 8
        (fun x => if x < 10 then (0 : Int) else if x < 20 then 6 else 7)
        0 10 20 (0 + 3) = 6 * 7 :=
  c9_mult_constant MultOp.alignedAvx 8 0 10 20 (6 : Int) (7 : Int)
    (fun x => if x < 10 then (0 : Int) else if x < 20 then 6 else 7)
    (by decide) (Or.inl (by norm_num)) (Or.inl (by norm_num))
    (fun i hi => by simp only []; rw [if_neg (by omega), if_pos (by omega)])
    (fun i hi => by simp only []; rw [if_neg (by omega), if_neg (by omega)])
    3 (by norm_num)

/-- One passing step of the verification scan. -/
theorem verifyScan_step_lt {α : Type} [DecidableEq α] (num : Nat)
    (dv ev : Nat → α) (i : Nat) (hi : i < num) (heq : dv i = ev i) :
    verifyScan num dv ev i = verifyScan num dv ev (i + 1) := by
  rw [verifyScan, if_pos hi, if_pos heq]

/-- A mismatching step of the verification scan short-circuits. -/
theorem verifyScan_step_ne {α : Type} [DecidableEq α] (num : Nat)
    (dv ev : Nat → α) (i : Nat) (hi : i < num) (hne : dv i ≠ ev i) :
    verifyScan num dv ev i = some (i, dv i, ev i) := by
  rw [verifyScan, if_pos hi, if_neg hne]

/-- The verification scan past the working set reports nothing. -/
theorem verifyScan_end {α : Type} [DecidableEq α] (num : Nat)
    (dv ev : Nat → α) (i : Nat) (hi : ¬ i < num) :
    verifyScan num dv ev i = none := by
  rw [verifyScan, if_neg hi]

/-- Running the generic copy executor with `NullCopy` leaves exactly the
zero-fill: the timed no-op iterations change nothing. -/
theorem RunCopyHeap_null {α : Type} [Zero α] (num total : Nat)
    (hnum : 0 < num) (d s : Nat) (h : Heap α) :
    RunCopyHeap NullCopy num total hnum d s h = fillZero h d num := by
  rw [RunCopyHeap,
    runLoop_eq_iterate (fun hh => NullCopy num hh d s) total num hnum
      (total - 0) 0 (fillZero h d num) rfl]
  have hid : (fun hh : Heap α => NullCopy num hh d s) = id := rfl
  rw [hid, Function.iterate_id]
  rfl

/-- C5 (counterexample): the claim says the executor reports the first
mismatching index.  The diagnostic the code prints
(`"Error in " << name << " " << d[i] << " != " << expected`) carries only
the operation name and the two values: two runs whose first mismatches
are at different indices (index 0 in the first heap below, index 1 in the
second) produce identical diagnostics, so the index is not reported. -/
theorem c5_index_not_reported_counterexample :
    RunCopyVerdict (α := Int) NullCopy "Aligned Sse" 2 2 (by norm_num) 0 10
        (fun x => if x < 10 then 0 else 1) =
      Except.error ⟨"Aligned Sse", 0, 1⟩ ∧
    RunCopyVerdict (α := Int) NullCopy "Aligned Sse" 2 2 (by norm_num) 0 10
        (fun x => if x = 11 then 1 else 0) =
      Except.error ⟨"Aligned Sse", 0, 1⟩ ∧
    verifyScan 2
        (fun i => RunCopyHeap (α := Int) NullCopy 2 2 (by norm_num) 0 10
          (fun x => if x < 10 then 0 else 1) (0 + i))
        (fun i => RunCopyHeap (α := Int) NullCopy 2 2 (by norm_num) 0 10
          (fun x => if x < 10 then 0 else 1) (10 + i)) 0 =
      some (0, 0, 1) ∧
    verifyScan 2
        (fun i => RunCopyHeap (α := Int) NullCopy 2 2 (by norm_num) 0 10
          (fun x => if x = 11 then 1 else 0) (0 + i))
        (fun i => RunCopyHeap (α := Int) NullCopy 2 2 (by norm_num) 0 10
          (fun x => if x = 11 then 1 else 0) (10 + i)) 0 =
      some (1, 0, 1) ∧
    (0 : Nat) ≠ 1 := by
  have hA : verifyScan 2
      (fun i => fillZero (fun x => if x < 10 then (0 : Int) else 1) 0 2 (0 + i))
      (fun i => fillZero (fun x => if x < 10 then (0 : Int) else 1) 0 2 (10 + i)) 0 =
        some (0, 0, 1) := by
    rw [verifyScan_step_ne _ _ _ _ (by norm_num) (by norm_num [fillZero])]
    norm_num [fillZero]
  have hB : verifyScan 2
      (fun i => fillZero (fun x => if x = 11 then (1 : Int) else 0) 0 2 (0 + i))
      (fun i => fillZero (fun x => if x = 11 then (1 : Int) else 0) 0 2 (10 + i)) 0 =
        some (1, 0, 1) := by
    rw [verifyScan_step_lt _ _ _ _ (by norm_num) (by norm_num [fillZero]),
      verifyScan_step_ne _ _ _ _ (by norm_num) (by norm_num [fillZero])]
    norm_num [fillZero]
  refine ⟨?_, ?_, ?_, ?_, by norm_num⟩
  · unfold RunCopyVerdict
    simp only [RunCopyHeap_null]
    rw [hA]
  · unfold RunCopyVerdict
    simp only [RunCopyHeap_null]
    rw [hB]
  · simp only [RunCopyHeap_null]
    exact hA
  · simp only [RunCopyHeap_null]
    exact hB

/-- C5 (amended): when verification after a timed run finds a mismatch,
the executor reports the operation name together with the actual and the
expected value of the first mismatching element (the index itself is not
part of the diagnostic, though it determines which values are printed),
terminates the process immediately (`exit(1)`, modelled as
`Except.error`), and emits no timing sample for that run; the scan
short-circuits at the first mismatch: the reported values differ and all
earlier indices agree. -/
theorem c5_fatal_first_mismatch {α : Type} [Zero α] [DecidableEq α]
    (op : Nat → Heap α → Nat → Nat → Heap α) (name : String)
    (num total : Nat) (hnum : 0 < num) (d s : Nat) (h : Heap α)
    (i : Nat) (a e : α)
    (hscan : verifyScan num
      (fun j => RunCopyHeap op num total hnum d s h (d + j))
      (fun j => RunCopyHeap op num total hnum d s h (s + j)) 0 =
        some (i, a, e)) :
    RunCopyVerdict op name num total hnum d s h = Except.error ⟨name, a, e⟩ ∧
      i < num ∧
      a = RunCopyHeap op num total hnum d s h (d + i) ∧
      e = RunCopyHeap op num total hnum d s h (s + i) ∧
      a ≠ e ∧
      (∀ j, j < i → RunCopyHeap op num total hnum d s h (d + j) =
        RunCopyHeap op num total hnum d s h (s + j)) ∧
      ∀ t : Emitted, RunCopyVerdict op name num total hnum d s h ≠ Except.ok t := by
  obtain ⟨h1, h2, h3, h4, h5, h6⟩ :=
    verifyScan_spec num _ _ (num - 0) 0 i a e rfl hscan
  have hv : RunCopyVerdict op name num total hnum d s h =
      Except.error ⟨name, a, e⟩ := by
    unfold RunCopyVerdict
    rw [hscan]
  refine ⟨hv, h2, h3, h4, by rw [h3, h4]; exact h5,
    fun j hj => h6 j (Nat.zero_le j) hj, ?_⟩
  intro t hcontra
  rw [hv] at hcontra
  exact Except.noConfusion hcontra

/-- Witness for C5: concrete failing run (the no-op through the generic
executor with distinct buffers: the zero-filled destination disagrees
with the constant-1 source at index 0). -/
theorem c5_witness :
    RunCopyVerdict (α := Int) NullCopy "for-loop" 2 2 (by norm_num) 0 20
        (fun x => if x < 20 then 0 else 1) =
      Except.error ⟨"for-loop", 0, 1⟩ ∧
      (0 : Nat) < 2 ∧ (0 : Int) ≠ 1 := by
  have hscan : verifyScan 2
      (fun j => RunCopyHeap (α := Int) NullCopy 2 2 (by norm_num) 0 20
        (fun x => if x < 20 then 0 else 1) (0 + j))
      (fun j => RunCopyHeap (α := Int) NullCopy 2 2 (by norm_num) 0 20
        (fun x => if x < 20 then 0 else 1) (20 + j)) 0 =
        some (0, 0, 1) := by
    simp only [RunCopyHeap_null]
    rw [verifyScan_step_ne _ _ _ _ (by norm_num) (by norm_num [fillZero])]
    norm_num [fillZero]
  obtain ⟨h1, h2, _, _, h5, _, _⟩ :=
    c5_fatal_first_mismatch (α := Int) NullCopy "for-loop" 2 2 (by norm_num)
      0 20 (fun x => if x < 20 then 0 else 1) 0 0 1 hscan
  exact ⟨h1, h2, h5⟩

/-- C6 (counterexample): in the copy program the source buffer is not
read-only.  This models `Run<NullCopy>("Aligned Sse", 4, source.data(),
source.data())` at sweep offset 4 (inapplicable since `4 % 16 ≠ 0`): both
pointers are the source buffer (aligned here to element address 1), the
generic executor zero-fills `num = 4` elements of it, the verifier
trivially passes (`d` and `s` are the same address) and a time sample is
emitted — yet source element 1, pre-filled with the check value 1, now
holds 0. -/
theorem c6_source_overwritten_counterexample :
    RunCopyHeap (α := Int) NullCopy 4 4 (by norm_num) 1 1 (fun _ => 1) 1 = 0 ∧
      (fun _ : Nat => (1 : Int)) 1 = 1 ∧ (0 : Int) ≠ 1 ∧
      RunCopyVerdict (α := Int) NullCopy "Aligned Sse" 4 4 (by norm_num) 1 1
          (fun _ => 1) =
        Except.ok Emitted.timeSample := by
  refine ⟨?_, rfl, by norm_num, ?_⟩
  · rw [RunCopyHeap_null]
    norm_num [fillZero]
  · unfold RunCopyVerdict
    simp only [RunCopyHeap_null]
    rw [verifyScan_step_lt _ _ _ _ (by norm_num) rfl,
      verifyScan_step_lt _ _ _ _ (by norm_num) rfl,
      verifyScan_step_lt _ _ _ _ (by norm_num) rfl,
      verifyScan_step_lt _ _ _ _ (by norm_num) rfl,
      verifyScan_end _ _ _ _ (by norm_num)]

/-- C6 (amended): in the multiply program the sources are read-only:
every real run writes only the aligned destination region (which `main`
keeps disjoint from the source regions), so every address outside
`[d, d + num)` — in particular every source element — keeps its value
across the run, and the `Run<NullMult>` specialization writes nothing at
all.  In the copy program the invariant fails for the placeholder
columns (see the counterexample). -/
theorem c6_mult_sources_read_only {α : Type} [Zero α] [Mul α] (op : MultOp)
    (num total : Nat) (hnum : 0 < num) (d a b : Nat) (h : Heap α)
    (hdvd : op.width ∣ num) (hda : RegionsDisjoint d a num)
    (hdb : RegionsDisjoint d b num) :
    (∀ x, x < d ∨ d + num ≤ x →
      RunMultHeap (MultOp.run op) num total hnum d a b h x = h x) ∧
      ∀ hh : Heap α, RunNullMultHeap hh = hh := by
  constructor
  · intro x hx
    have hf : ∀ (hh : Heap α) (y : Nat), (y < d ∨ d + num ≤ y) →
        op.run num hh d a b y = hh y := by
      intro hh y hy
      rw [multRun_spec op num d a b hh hdvd hda hdb]
      simp only []
      rw [if_neg (by omega)]
    have hframe := runLoop_frame (fun hh => op.run num hh d a b) total num
      hnum (fun y => y < d ∨ d + num ≤ y) hf (total - 0) 0
      (fillZero h d num) x rfl hx
    rw [RunMultHeap, hframe, fillZero, if_neg (by omega)]
  · intro hh
    rfl

/-- Witness for C6: `NiaveMult` through the multiply executor with
`num = total = 1`, destination 0, sources 2 and 3: address 5 keeps its
value 1, and the `Run<NullMult>` specialization is the identity. -/
theorem c6_witness :
    RunMultHeap (α := Int) (MultOp.run MultOp.niave) 1 1 (by norm_num) 0 2 3
        (fun _ => 1) 5 = 1 ∧
      RunNullMultHeap (α := Int) (fun _ => 2) = (fun _ => (2 : Int)) := by
  obtain ⟨h1, h2⟩ := c6_mult_sources_read_only (α := Int) MultOp.niave 1 1
    (by norm_num) 0 2 3 (fun _ => 1) (by decide)
    (Or.inl (by norm_num)) (Or.inl (by norm_num))
  exact ⟨h1 5 (Or.inr (by norm_num)), h2 (fun _ => 2)⟩

end SimdPerf
